import Mathlib

/-!
Verification of the Voicer voice-assistant core.

Shallow embedding of:
- `detect_voice.py` : the VAD utterance segmenter (`record_with_vad`), the
  playback barrier handling inside its capture loop, and the conversation
  turn loop (`listen_loop`) with its consecutive-error circuit breaker and
  conversation history.
- `app_core.py` : `AppCore.append_history` and `AppCore.get_response`.
- `tts_api.py` : the speed-adjustment branch of `speak_text`.
- `deepseek_api.py` : `clean_text_for_tts` and the cleaned reply returned by
  `get_deepseek_response`.

External effects (audio devices, network calls, wall-clock time) are modelled
by explicit inputs: the frames read before the deadline, the classification
the VAD returns for each frame, whether the playback lock is held at each
loop iteration, and the outcome of each network call.
-/

namespace DetectVoice

/-- `ring_buffer = collections.deque(maxlen=10)` in `record_with_vad`. -/
def maxlen : Nat := 10

/-- The mutable local state of `record_with_vad`'s capture loop:
`triggered`, `ring_buffer` (oldest first, as the deque iterates) and
`speech_frames`.  `α` is the type of raw audio frames. -/
structure VadState (α : Type) where
  triggered : Bool
  ring : List (α × Bool)
  speech : List α

/-- State at loop entry: `triggered = False`, empty deque, no speech frames. -/
def initState {α : Type} : VadState α := ⟨false, [], []⟩

/-- `ring_buffer.append(x)` on a deque with `maxlen` capacity: append and
evict the oldest element once the capacity is exceeded. -/
def dequePush {α : Type} (r : List (α × Bool)) (x : α × Bool) : List (α × Bool) :=
  (r ++ [x]).drop ((r ++ [x]).length - maxlen)

/-- `sum(1 for f, v in ring_buffer if v)`. -/
def countVoiced {α : Type} (r : List (α × Bool)) : Nat :=
  r.countP (fun p => p.2)

/-- `sum(1 for f, v in ring_buffer if not v)`. -/
def countUnvoiced {α : Type} (r : List (α × Bool)) : Nat :=
  r.countP (fun p => !p.2)

/-- One classified frame fed to the segmenter (lines 92-105 of
`detect_voice.py`).  Returns the new state and whether the loop `break`s.
The float comparisons `num_voiced > 0.6 * ring_buffer.maxlen` and
`num_unvoiced > 0.6 * ring_buffer.maxlen` are rendered as
`10 * count > 6 * maxlen`, exact since `0.6 * 10 == 6.0`. -/
def stepFrame {α : Type} (s : VadState α) (f : α) (v : Bool) : VadState α × Bool :=
  if s.triggered = false then
    let ring' := dequePush s.ring (f, v)
    if 10 * countVoiced ring' > 6 * maxlen then
      (⟨true, [], s.speech ++ ring'.map Prod.fst⟩, false)
    else
      (⟨false, ring', s.speech⟩, false)
  else
    let speech' := s.speech ++ [f]
    let ring' := dequePush s.ring (f, v)
    if 10 * countUnvoiced ring' > 6 * maxlen then
      (⟨true, ring', speech'⟩, true)
    else
      (⟨true, ring', speech'⟩, false)

/-- Feed a list of classified frames to the segmenter, stopping at a `break`.
The list holds the frames the capture loop classifies before the wall-clock
deadline elapses; the returned flag says whether the loop broke early. -/
def runFrames {α : Type} : List (α × Bool) → VadState α → VadState α × Bool
  | [], s => (s, false)
  | (f, v) :: rest, s =>
    match stepFrame s f v with
    | (s', true) => (s', true)
    | (s', false) => runFrames rest s'

/-- What one iteration of the capture loop observes from the environment
once the barrier check has passed: a read error (`IOError`/`OSError`), a
frame of the wrong byte length, a frame on which `vad.is_speech` raises, or
a frame with its classification. -/
inductive CaptureEvent (α : Type) where
  | readError : CaptureEvent α
  | badLength : CaptureEvent α
  | vadError : α → CaptureEvent α
  | frame : α → Bool → CaptureEvent α

/-- One iteration of `record_with_vad`'s while-loop (lines 69-105).  The
`barrier` flag is whether `is_playing_lock.locked()` was observed `True`:
in that case the frame is read and discarded and the iteration `continue`s
without touching the segmenter.  Read errors, wrong-length frames and VAD
exceptions also `continue`.  Returns the new state and the `break` flag. -/
def captureStep {α : Type} (s : VadState α) (barrier : Bool) (ev : CaptureEvent α) :
    VadState α × Bool :=
  if barrier then (s, false)
  else
    match ev with
    | .readError => (s, false)
    | .badLength => (s, false)
    | .vadError _ => (s, false)
    | .frame f v => stepFrame s f v

/-- Run the capture loop over the iterations that happen before the deadline,
each with its observed barrier state and event. -/
def runCapture {α : Type} : List (Bool × CaptureEvent α) → VadState α → VadState α × Bool
  | [], s => (s, false)
  | (b, ev) :: rest, s =>
    match captureStep s b ev with
    | (s', true) => (s', true)
    | (s', false) => runCapture rest s'

/-- `record_with_vad` (lines 47-120): if opening the input stream fails the
function returns `None` immediately; otherwise it runs the capture loop and
returns `None` when `speech_frames` is empty, else the collected frames
(the `b"".join` / `sr.AudioData` wrapping is kept as the frame list). -/
def record_with_vad {α : Type} [DecidableEq α] (openOk : Bool)
    (evs : List (Bool × CaptureEvent α)) : Option (List α) :=
  if openOk then
    let s := (runCapture evs initState).1
    if s.speech = [] then none else some s.speech
  else
    none

/-- `HISTORY_KEEP = 6`. -/
def HISTORY_KEEP : Nat := 6

/-- `append_history` of `detect_voice.py` (lines 123-127): append a
`(role, content)` pair and trim the front so at most `HISTORY_KEEP`
entries remain. -/
def append_history (h : List (String × String)) (role content : String) :
    List (String × String) :=
  let h' := h ++ [(role, content)]
  if h'.length > HISTORY_KEEP then h'.drop (h'.length - HISTORY_KEEP) else h'

/-- `max_consecutive_errors = 3` in `listen_loop`. -/
def max_consecutive_errors : Nat := 3

/-- The state `listen_loop` carries across iterations: `consecutive_errors`
and the global `conversation_history`. -/
structure LoopState where
  consecutive_errors : Nat
  history : List (String × String)

/-- What one iteration of `listen_loop` observes from its collaborators:
`record_with_vad` returned `None`; transcription raised `UnknownValueError`;
transcription raised `RequestError`; transcription succeeded with `text` and
the chat call then returned `some reply` or raised (`none`); the user hit
Ctrl+C; or an unexpected exception reached the outer handler. -/
inductive TurnEvent where
  | recordNone : TurnEvent
  | transUnknown : TurnEvent
  | transFail : TurnEvent
  | turn : String → Option String → TurnEvent
  | interrupt : TurnEvent
  | crash : TurnEvent

/-- One iteration of `listen_loop` (lines 153-226).  Returns the new state
and whether the loop exits (`break`).  In the `turn` case the order follows
the source: `consecutive_errors = 0` on transcription success (line 163),
then `append_history("user", text)` (line 177), then the chat call; on chat
success `append_history("assistant", response)` and another reset, on chat
failure `consecutive_errors += 1` with the ceiling check. -/
def loopStep (s : LoopState) (ev : TurnEvent) : LoopState × Bool :=
  match ev with
  | .recordNone => (s, false)
  | .transUnknown => (s, false)
  | .transFail =>
    let ce := s.consecutive_errors + 1
    if ce ≥ max_consecutive_errors then (⟨ce, s.history⟩, true) else (⟨ce, s.history⟩, false)
  | .turn text reply =>
    let h1 := append_history s.history "user" text
    match reply with
    | some resp => (⟨0, append_history h1 "assistant" resp⟩, false)
    | none =>
      let ce := 0 + 1
      if ce ≥ max_consecutive_errors then (⟨ce, h1⟩, true) else (⟨ce, h1⟩, false)
  | .interrupt => (s, true)
  | .crash =>
    let ce := s.consecutive_errors + 1
    if ce ≥ max_consecutive_errors then (⟨ce, s.history⟩, true) else (⟨ce, s.history⟩, false)

/-- Run `listen_loop` over a list of iteration outcomes.  Returns the final
state, whether the loop exited via `break`, and how many iterations were
actually executed (events after a `break` never run). -/
def runLoop : List TurnEvent → LoopState → LoopState × Bool × Nat
  | [], s => (s, false, 0)
  | ev :: rest, s =>
    match loopStep s ev with
    | (s', true) => (s', true, 1)
    | (s', false) =>
      match runLoop rest s' with
      | (s'', d, n) => (s'', d, n + 1)

end DetectVoice

namespace AppCore

/-- The fields of `AppCore` that `append_history` and `get_response` touch. -/
structure State where
  language : String
  history_keep : Nat
  conversation_history : List (String × String)

/-- `AppCore.append_history` (lines 24-28): append, then keep the last
`history_keep` entries when the bound is exceeded. -/
def append_history (s : State) (role content : String) : State :=
  let h' := s.conversation_history ++ [(role, content)]
  if h'.length > s.history_keep then
    ⟨s.language, s.history_keep, h'.drop (h'.length - s.history_keep)⟩
  else
    ⟨s.language, s.history_keep, h'⟩

/-- `AppCore.get_response` (lines 51-69).  `reply` is the outcome of the
`get_deepseek_response` call: `some resp` on success, `none` when it raises.
On success the user turn and then the assistant turn are appended; on
failure the state is untouched and a fixed apology in the session language
is returned. -/
def get_response (s : State) (text : String) (reply : Option String) : State × String :=
  match reply with
  | some resp =>
    ((append_history (append_history s "user" text) "assistant" resp), resp)
  | none =>
    (s, if s.language = "tr-TR" then "Bir hata oluştu." else "An error occurred.")

end AppCore

namespace TtsApi

/-- The speed-adjustment step of `speak_text` (`tts_api.py` lines 173-214),
as a function of the decoded WAV bytes.  `speed` is the float argument
(floats compared only for equality, so rendered as `ℚ`); `hasFFmpeg` is
`_has_ffmpeg()`; `ffmpegAtempo` stands for the bytes produced by the ffmpeg
`atempo` subprocess.  When `speed != 1.0` and ffmpeg is available the bytes
are piped through ffmpeg; the no-ffmpeg fallback explicitly skips the speed
change ("safe fallback: skip speed change if we can't do it properly"); when
`speed == 1.0` the branch is never entered. -/
def speedAdjustedWav {β : Type} (speed : ℚ) (hasFFmpeg : Bool) (wav : β)
    (ffmpegAtempo : β → β) : β :=
  if speed ≠ 1 then
    if hasFFmpeg then ffmpegAtempo wav else wav
  else
    wav

end TtsApi

namespace DeepseekApi

/-- The backtick character (avoids the raw character in code). -/
def btick : Char := Char.ofNat 96

/-- Python `\s` / `str.strip()` whitespace for the characters relevant
here: ASCII whitespace plus the Unicode whitespace code points CPython
treats as space. -/
def isPySpace (c : Char) : Bool :=
  let n := c.toNat
  n == 0x20 || (0x9 ≤ n && n ≤ 0xd) || (0x1c ≤ n && n ≤ 0x1f) || n == 0x85 || n == 0xa0 ||
  n == 0x1680 || (0x2000 ≤ n && n ≤ 0x200a) || n == 0x2028 || n == 0x2029 ||
  n == 0x202f || n == 0x205f || n == 0x3000

/-- The character class of `_MULTI_PUNCT_RE = [\.\?!]{2,}` (also the set
tested by `text[-1] not in ".!?"`). -/
def isPunct (c : Char) : Bool :=
  c == '.' || c == '?' || c == '!'

/-- The character class of `_SPECIAL_CHARS_RE = [*#~<>•…»«©®∆`]`,
by code point: `* # ~ < > U+2022 U+2026 U+00BB U+00AB U+00A9 U+00AE U+2206`
and the backtick. -/
def isSpecialChar (c : Char) : Bool :=
  let n := c.toNat
  n == 0x2a || n == 0x23 || n == 0x7e || n == 0x3c || n == 0x3e || n == 0x2022 ||
  n == 0x2026 || n == 0xbb || n == 0xab || n == 0xa9 || n == 0xae || n == 0x2206 || n == 0x60

/-- The character class of `_EMOJI_RE` (the union of its code-point ranges). -/
def isEmojiChar (c : Char) : Bool :=
  let n := c.toNat
  (0x1F600 ≤ n && n ≤ 0x1F64F) || (0x1F300 ≤ n && n ≤ 0x1F5FF) ||
  (0x1F680 ≤ n && n ≤ 0x1F6FF) || (0x1F1E0 ≤ n && n ≤ 0x1F1FF) ||
  (0x2700 ≤ n && n ≤ 0x27BF) || (0x24C2 ≤ n && n ≤ 0x1F251)

/-- Index of the first position of `l` at which `pat` occurs as a prefix of
the remaining suffix (used for the non-greedy `.*?` searches, which match up
to the earliest occurrence of the closing delimiter). -/
def findPat (pat : List Char) : List Char → Option Nat
  | [] => if pat = [] then some 0 else none
  | c :: t => if pat.isPrefixOf (c :: t) then some 0 else (findPat pat t).map (· + 1)

/-- Index of the first `target` character, failing when a newline comes
first (for `_BRACKETED_RE`, whose `.` does not match `\n`). -/
def findBeforeNl (target : Char) : List Char → Option Nat
  | [] => none
  | c :: t =>
    if c = target then some 0
    else if c = '\n' then none
    else (findBeforeNl target t).map (· + 1)

/-- Leftmost, non-overlapping `re.sub` scan: at each position try `step`;
on a match emit the replacement and continue after the consumed text, else
emit the character and advance one.  Every `step` used here consumes at
least one character, so `fuel = length` suffices. -/
def scanSub (step : List Char → Option (List Char × List Char)) :
    Nat → List Char → List Char
  | 0, l => l
  | _ + 1, [] => []
  | fuel + 1, c :: t =>
    match step (c :: t) with
    | some (repl, rest) => repl ++ scanSub step fuel rest
    | none => c :: scanSub step fuel t

/-- Match of ```` ```.*?``` ```` (DOTALL) at the head of the input:
requires an opening triple backtick and a closing one; replaced by nothing. -/
def fenceStep (l : List Char) : Option (List Char × List Char) :=
  if [btick, btick, btick].isPrefixOf l then
    match findPat [btick, btick, btick] (l.drop 3) with
    | some i => some ([], (l.drop 3).drop (i + 3))
    | none => none
  else none

/-- Match of ``` `([^`]*)` ``` at the head of the input: an opening backtick
with a closing one; replaced by the enclosed text. -/
def inlineStep (l : List Char) : Option (List Char × List Char) :=
  match l with
  | [] => none
  | c :: t =>
    if c = btick then
      match findPat [btick] t with
      | some i => some (t.take i, t.drop (i + 1))
      | none => none
    else none

/-- Try one delimiter alternative of `(\*\*|\*|__|_)(.*?)\1` at the head:
the delimiter must open and close, the non-greedy body stops at its earliest
recurrence; replaced by the body. -/
def mdTryDelim (d : List Char) (l : List Char) : Option (List Char × List Char) :=
  if d.isPrefixOf l then
    match findPat d (l.drop d.length) with
    | some i => some ((l.drop d.length).take i, (l.drop d.length).drop (i + d.length))
    | none => none
  else none

/-- Match of `_MARKDOWN_BOLD_ITALIC_RE = (\*\*|\*|__|_)(.*?)\1` (DOTALL) at
the head, trying the alternatives in the pattern's order with backtracking. -/
def markdownStep (l : List Char) : Option (List Char × List Char) :=
  match mdTryDelim ['*', '*'] l with
  | some r => some r
  | none =>
    match mdTryDelim ['*'] l with
    | some r => some r
    | none =>
      match mdTryDelim ['_', '_'] l with
      | some r => some r
      | none => mdTryDelim ['_'] l

/-- Match of `_BRACKETED_RE = \[.*?\]|\(.*?\)` (no DOTALL: the body may not
cross a newline) at the head; replaced by nothing. -/
def bracketedStep (l : List Char) : Option (List Char × List Char) :=
  match l with
  | [] => none
  | c :: t =>
    if c = '[' then
      match findBeforeNl ']' t with
      | some i => some ([], t.drop (i + 1))
      | none => none
    else if c = '(' then
      match findBeforeNl ')' t with
      | some i => some ([], t.drop (i + 1))
      | none => none
    else none

/-- `_CODE_FENCE_RE.sub("", text)`. -/
def subFence (l : List Char) : List Char := scanSub fenceStep l.length l

/-- `_INLINE_CODE_RE.sub(r"\1", text)`. -/
def subInline (l : List Char) : List Char := scanSub inlineStep l.length l

/-- `_MARKDOWN_BOLD_ITALIC_RE.sub(r"\2", text)`. -/
def subMarkdown (l : List Char) : List Char := scanSub markdownStep l.length l

/-- `_BRACKETED_RE.sub("", text)`. -/
def subBracketed (l : List Char) : List Char := scanSub bracketedStep l.length l

/-- `_EMOJI_RE.sub("", text)`: removing every maximal run of emoji
characters deletes exactly the emoji characters. -/
def removeEmoji (l : List Char) : List Char := l.filter (fun c => !isEmojiChar c)

/-- `_SPECIAL_CHARS_RE.sub("", text)`. -/
def removeSpecial (l : List Char) : List Char := l.filter (fun c => !isSpecialChar c)

/-- `_MULTI_PUNCT_RE.sub(".", text)`: a maximal run of two or more `.?!`
characters becomes a single dot; an isolated one is kept.  The flag records
being inside a run whose dot was already emitted. -/
def collapsePunctAux : Bool → List Char → List Char
  | _, [] => []
  | true, c :: t =>
    if isPunct c then collapsePunctAux true t else c :: collapsePunctAux false t
  | false, [c] => [c]
  | false, a :: b :: t =>
    if isPunct a && isPunct b then '.' :: collapsePunctAux true (b :: t)
    else a :: collapsePunctAux false (b :: t)

/-- `_MULTI_PUNCT_RE.sub(".", text)`. -/
def collapsePunct (l : List Char) : List Char := collapsePunctAux false l

/-- `_WHITESPACE_RE.sub(" ", text)`: every maximal whitespace run becomes a
single space.  The flag records being inside a run whose space was emitted. -/
def collapseWsAux : Bool → List Char → List Char
  | _, [] => []
  | prev, c :: t =>
    if isPySpace c then
      if prev then collapseWsAux true t else ' ' :: collapseWsAux true t
    else c :: collapseWsAux false t

/-- `_WHITESPACE_RE.sub(" ", text)`. -/
def collapseWs (l : List Char) : List Char := collapseWsAux false l

/-- Remove trailing whitespace (the right half of `str.strip()`). -/
def dropTrailingWs : List Char → List Char
  | [] => []
  | c :: t =>
    match dropTrailingWs t with
    | [] => if isPySpace c then [] else [c]
    | r => c :: r

/-- Python `str.strip()`. -/
def pyStrip (l : List Char) : List Char := dropTrailingWs (l.dropWhile isPySpace)

/-- Steps 1-5 of `clean_text_for_tts`: code fences, inline code, markdown
emphasis, bracketed text, emojis, in the source's order. -/
def ttsPre (l : List Char) : List Char :=
  removeEmoji (subBracketed (subMarkdown (subInline (subFence l))))

/-- Steps 6-8 of `clean_text_for_tts`: special characters, punctuation
runs, whitespace collapse and strip, in the source's order. -/
def ttsCore (l : List Char) : List Char :=
  pyStrip (collapseWs (collapsePunct (removeSpecial l)))

/-- The final step of `clean_text_for_tts`:
`if text and text[-1] not in ".!?": text = text + "."`. -/
def ttsFinal (l : List Char) : List Char :=
  match l.getLast? with
  | none => l
  | some c => if isPunct c then l else l ++ ['.']

/-- `clean_text_for_tts` (`deepseek_api.py` lines 65-79), on the character
list of the text.  Empty input is returned unchanged (`if not text`). -/
def clean_text_for_tts (l : List Char) : List Char :=
  if l = [] then l else ttsFinal (ttsCore (ttsPre l))

/-- The string `get_deepseek_response` returns for a chat-completion payload
`content` (line 149): `clean_text_for_tts(content.strip())`.  The network
exchange itself is external; this is the post-processing of its result. -/
def deepseekCleanedReply (content : List Char) : List Char :=
  clean_text_for_tts (pyStrip content)

/-- The cleaned reply ends in a sentence-final punctuation mark
(when non-empty). -/
def endsSentence (l : List Char) : Bool := l.getLast?.all isPunct

/-- No character of `_SPECIAL_CHARS_RE` occurs. -/
def noSpecialB (l : List Char) : Bool := l.all (fun c => !isSpecialChar c)

/-- No two adjacent characters are both in `[.?!]` (no run of length ≥ 2). -/
def noPunctPair : List Char → Bool
  | a :: b :: t => !(isPunct a && isPunct b) && noPunctPair (b :: t)
  | _ => true

/-- The first character is not whitespace. -/
def headNoWs (l : List Char) : Bool := l.head?.all (fun c => !isPySpace c)

/-- The last character is not whitespace. -/
def lastNoWs (l : List Char) : Bool := l.getLast?.all (fun c => !isPySpace c)

end DeepseekApi

namespace DetectVoice

/-- The Idle→Triggered transition condition as the specification words it:
the voiced fraction of the window (voiced count over current window size)
exceeds 0.6 AND the window holds its full capacity of `maxlen` frames. -/
def specTriggerCondition {α : Type} (w : List (α × Bool)) : Prop :=
  10 * countVoiced w > 6 * w.length ∧ w.length = maxlen

/-- The last `n` elements of a list (what a deque of capacity `n` retains). -/
def lastN {α : Type} (n : Nat) (l : List α) : List α := l.drop (l.length - n)

end DetectVoice

/-- The `listen_loop` step on a chat-failure turn, at concrete inputs:
four consecutive chat-call failures are all attempted (4 iterations run)
and the loop does not exit, because the successful transcription inside
each turn resets `consecutive_errors` to 0 before the chat call fails and
bumps it back to 1; and a turn whose transcription succeeds resets a
counter already at 2 down to 1 even though the turn's chat call fails. -/
theorem C1_counterexample :
    DetectVoice.runLoop (List.replicate 4 (DetectVoice.TurnEvent.turn "hi" none)) ⟨0, []⟩
      = (⟨1, [("user", "hi"), ("user", "hi"), ("user", "hi"), ("user", "hi")]⟩, false, 4)
    ∧ DetectVoice.loopStep ⟨2, []⟩ (DetectVoice.TurnEvent.turn "hi" none)
      = (⟨1, [("user", "hi")]⟩, false) :=
  ⟨rfl, rfl⟩

/-- Claim C1 (amended): the consecutive-error counter is reset to zero by a
successful transcription (an intermediate step) as well as by a fully
successful turn, so any number of consecutive `ServiceError` results from
the chat call (`getReply`) leaves the loop running; the ceiling of 3 does
terminate the loop without a 4th attempt for errors with no intervening
success, e.g. 3 consecutive transcription service errors. -/
theorem C1_amended :
    (∀ (n : Nat) (t : String) (s : DetectVoice.LoopState),
      (DetectVoice.runLoop (List.replicate n (DetectVoice.TurnEvent.turn t none)) s).2.1 = false)
    ∧ DetectVoice.runLoop (List.replicate 4 DetectVoice.TurnEvent.transFail) ⟨0, []⟩
        = (⟨3, []⟩, true, 3)
    ∧ (∀ (s : DetectVoice.LoopState) (t r : String),
      (DetectVoice.loopStep s (DetectVoice.TurnEvent.turn t (some r))).1.consecutive_errors
        = 0) := by
  refine ⟨?_, rfl, fun _ _ _ => rfl⟩
  intro n t
  induction n with
  | zero => intro s; rfl
  | succ k ih =>
    intro s
    rw [List.replicate_succ]
    exact ih ⟨1, DetectVoice.append_history s.history "user" t⟩

/-- A state whose window holds 6 voiced frames: pushing a 7th voiced frame
makes the segmenter trigger although the window then holds only 7 frames,
not its full capacity of 10, refuting the "window is full" part of the
claimed transition condition. -/
theorem C2_counterexample :
    ((DetectVoice.stepFrame
        (DetectVoice.runFrames (List.replicate 6 ((0 : Nat), true)) DetectVoice.initState).1
        0 true).1.triggered = true)
    ∧ ¬ DetectVoice.specTriggerCondition
        (DetectVoice.dequePush
          (DetectVoice.runFrames (List.replicate 6 ((0 : Nat), true)) DetectVoice.initState).1.ring
          ((0 : Nat), true)) := by
  constructor
  · decide
  · unfold DetectVoice.specTriggerCondition
    decide

/-- Claim C2 (amended): from Idle, pushing the classified frame makes the
segmenter transition to Triggered exactly when the voiced count of the
window after the push exceeds 0.6 × capacity (`> 6`), whether or not the
window is full; at the transition the whole window is flushed into the
utterance buffer in original temporal order and the window is cleared, and
the step never breaks the loop. -/
theorem C2_amended {α : Type} (s : DetectVoice.VadState α) (f : α) (v : Bool)
    (h : s.triggered = false) :
    ((DetectVoice.stepFrame s f v).1.triggered = true ↔
      10 * DetectVoice.countVoiced (DetectVoice.dequePush s.ring (f, v))
        > 6 * DetectVoice.maxlen)
    ∧ (10 * DetectVoice.countVoiced (DetectVoice.dequePush s.ring (f, v))
        > 6 * DetectVoice.maxlen →
      (DetectVoice.stepFrame s f v).1.ring = []
      ∧ (DetectVoice.stepFrame s f v).1.speech
          = s.speech ++ (DetectVoice.dequePush s.ring (f, v)).map Prod.fst)
    ∧ (DetectVoice.stepFrame s f v).2 = false := by
  by_cases hc : 10 * DetectVoice.countVoiced (DetectVoice.dequePush s.ring (f, v))
      > 6 * DetectVoice.maxlen <;>
    simp [DetectVoice.stepFrame, h, hc]

/-- Witness for C2 (amended), at a window of 6 voiced frames receiving a
7th voiced frame. -/
theorem C2_amended_witness :
    (DetectVoice.stepFrame
      (⟨false, List.replicate 6 ((0 : Nat), true), []⟩ : DetectVoice.VadState Nat)
      0 true).1.triggered = true :=
  ((C2_amended ⟨false, List.replicate 6 ((0 : Nat), true), []⟩ 0 true rfl).1).mpr (by decide)

/-- In `listen_loop`, a turn whose chat call fails leaves the user turn
appended: starting from an empty history, transcription success appends
`("user", "hello")` before the chat call, and the failed call does not roll
it back, so the history differs from the one before the turn began. -/
theorem C3_counterexample :
    (DetectVoice.loopStep ⟨0, []⟩ (DetectVoice.TurnEvent.turn "hello" none)).1.history
      = [("user", "hello")]
    ∧ [("user", "hello")] ≠ ([] : List (String × String)) := by
  exact ⟨rfl, by simp⟩

/-- Claim C3 (amended): `AppCore.get_response` mutates the history only on
success — nothing on failure, user turn then assistant turn (in that order)
on success; `listen_loop`, however, appends the user turn before the chat
call, so on failure the user turn remains appended, and on success the user
and assistant turns are appended in that order. -/
theorem C3_amended :
    (∀ (s : AppCore.State) (t : String), (AppCore.get_response s t none).1 = s)
    ∧ (∀ (s : AppCore.State) (t r : String),
      (AppCore.get_response s t (some r)).1
        = AppCore.append_history (AppCore.append_history s "user" t) "assistant" r)
    ∧ (∀ (ls : DetectVoice.LoopState) (t : String),
      (DetectVoice.loopStep ls (DetectVoice.TurnEvent.turn t none)).1.history
        = DetectVoice.append_history ls.history "user" t)
    ∧ (∀ (ls : DetectVoice.LoopState) (t r : String),
      (DetectVoice.loopStep ls (DetectVoice.TurnEvent.turn t (some r))).1.history
        = DetectVoice.append_history
            (DetectVoice.append_history ls.history "user" t) "assistant" r) :=
  ⟨fun _ _ => rfl, fun _ _ _ => rfl, fun _ _ => rfl, fun _ _ _ => rfl⟩

/-- The open-failure result of `record_with_vad` equals the no-speech
result — both are `None` — so the caller cannot tell them apart, and the
turn loop's reaction to a `None` result leaves `consecutive_errors`
untouched. -/
theorem C4_counterexample :
    DetectVoice.record_with_vad false
        (List.replicate 7 (false, DetectVoice.CaptureEvent.frame (0 : Nat) true))
      = DetectVoice.record_with_vad true ([] : List (Bool × DetectVoice.CaptureEvent Nat))
    ∧ DetectVoice.record_with_vad false
        (List.replicate 7 (false, DetectVoice.CaptureEvent.frame (0 : Nat) true)) = none
    ∧ DetectVoice.loopStep ⟨0, []⟩ DetectVoice.TurnEvent.recordNone = (⟨0, []⟩, false) :=
  ⟨rfl, rfl, rfl⟩

/-- Claim C4 (amended): on open failure `record_with_vad` returns `None`
immediately — the same value the timeout-without-speech path returns — so
the caller cannot distinguish a device error from no speech; the turn loop
treats any `None` result the same way, looping back without incrementing
`consecutive_errors`. -/
theorem C4_amended :
    (∀ (α : Type) (inst : DecidableEq α) (evs : List (Bool × DetectVoice.CaptureEvent α)),
      DetectVoice.record_with_vad false evs = none)
    ∧ (∀ (α : Type) (inst : DecidableEq α),
      DetectVoice.record_with_vad true ([] : List (Bool × DetectVoice.CaptureEvent α)) = none)
    ∧ (∀ (s : DetectVoice.LoopState),
      DetectVoice.loopStep s DetectVoice.TurnEvent.recordNone = (s, false)) :=
  ⟨fun _ _ _ => rfl, fun _ _ => rfl, fun _ => rfl⟩

/-- Claim C5: feeding the segmenter 10 unvoiced frames leaves it Idle with
an empty buffer; during the following 10 voiced frames it transitions to
Triggered (after the 16th frame it is still Idle, after the 17th it is
Triggered) with utterance buffer length exactly 10 at the transition; the
following 10 unvoiced frames end the utterance (the loop breaks) with final
buffer length exactly 20. -/
theorem C5_scenario :
    (DetectVoice.runFrames
      ((List.replicate 10 ((0 : Nat), false) ++ List.replicate 10 (1, true)
        ++ List.replicate 10 (2, false)).take 10) DetectVoice.initState).1.triggered = false
    ∧ (DetectVoice.runFrames
      ((List.replicate 10 ((0 : Nat), false) ++ List.replicate 10 (1, true)
        ++ List.replicate 10 (2, false)).take 10) DetectVoice.initState).1.speech = []
    ∧ (DetectVoice.runFrames
      ((List.replicate 10 ((0 : Nat), false) ++ List.replicate 10 (1, true)
        ++ List.replicate 10 (2, false)).take 16) DetectVoice.initState).1.triggered = false
    ∧ (DetectVoice.runFrames
      ((List.replicate 10 ((0 : Nat), false) ++ List.replicate 10 (1, true)
        ++ List.replicate 10 (2, false)).take 17) DetectVoice.initState).1.triggered = true
    ∧ (DetectVoice.runFrames
      ((List.replicate 10 ((0 : Nat), false) ++ List.replicate 10 (1, true)
        ++ List.replicate 10 (2, false)).take 17) DetectVoice.initState).1.speech.length = 10
    ∧ (DetectVoice.runFrames
      (List.replicate 10 ((0 : Nat), false) ++ List.replicate 10 (1, true)
        ++ List.replicate 10 (2, false)) DetectVoice.initState).2 = true
    ∧ (DetectVoice.runFrames
      (List.replicate 10 ((0 : Nat), false) ++ List.replicate 10 (1, true)
        ++ List.replicate 10 (2, false)) DetectVoice.initState).1.speech.length = 20 := by
  decide

/-- Claim C8: a capture-loop iteration taken while the playback barrier is
held leaves the segmenter state (triggered flag, ring buffer, utterance
buffer) unchanged and does not break the loop, whatever the iteration
observed; consequently deleting any barrier-held iteration from a run does
not change the capture loop's outcome. -/
theorem C8_barrier :
    (∀ (α : Type) (s : DetectVoice.VadState α) (ev : DetectVoice.CaptureEvent α),
      DetectVoice.captureStep s true ev = (s, false))
    ∧ (∀ (α : Type) (evs₁ evs₂ : List (Bool × DetectVoice.CaptureEvent α))
        (ev : DetectVoice.CaptureEvent α) (s : DetectVoice.VadState α),
      DetectVoice.runCapture (evs₁ ++ (true, ev) :: evs₂) s
        = DetectVoice.runCapture (evs₁ ++ evs₂) s) := by
  constructor
  · intro α s ev; rfl
  · intro α evs₁
    induction evs₁ with
    | nil => intro evs₂ ev s; rfl
    | cons hd tl ih =>
      intro evs₂ ev s
      obtain ⟨b, e⟩ := hd
      simp only [List.cons_append, DetectVoice.runCapture]
      rcases hc : DetectVoice.captureStep s b e with ⟨s', d⟩
      cases d
      · exact ih evs₂ ev s'
      · rfl

/-- With speed 2 and no ffmpeg available, the playback path plays the bytes
unchanged (the tempo transform is not applied) although the requested speed
differs from 1.0. -/
theorem C9_counterexample :
    TtsApi.speedAdjustedWav 2 false (0 : Nat) Nat.succ = 0
    ∧ Nat.succ 0 ≠ 0
    ∧ (2 : ℚ) ≠ 1 := by
  refine ⟨?_, by simp, by norm_num⟩
  unfold TtsApi.speedAdjustedWav
  norm_num

/-- Claim C9 (amended): the speed-change branch is entered exactly when the
requested speed ≠ 1.0 — for speed = 1.0 the decoded WAV bytes are played
unchanged — but the tempo adjustment is actually applied only when ffmpeg
is available; without ffmpeg the bytes are played unchanged even for
speed ≠ 1.0 (the fallback skips the speed change). -/
theorem C9_amended :
    (∀ (β : Type) (hasFF : Bool) (w : β) (tf : β → β),
      TtsApi.speedAdjustedWav 1 hasFF w tf = w)
    ∧ (∀ (β : Type) (speed : ℚ) (w : β) (tf : β → β),
      TtsApi.speedAdjustedWav speed true w tf = if speed = 1 then w else tf w)
    ∧ (∀ (β : Type) (speed : ℚ) (w : β) (tf : β → β),
      TtsApi.speedAdjustedWav speed false w tf = w) := by
  refine ⟨fun β hasFF w tf => by simp [TtsApi.speedAdjustedWav],
    fun β speed w tf => ?_, fun β speed w tf => ?_⟩
  · by_cases h : speed = 1 <;> simp [TtsApi.speedAdjustedWav, h]
  · by_cases h : speed = 1 <;> simp [TtsApi.speedAdjustedWav, h]

theorem dequePush_ne_nil {α : Type} (r : List (α × Bool)) (x : α × Bool) :
    DetectVoice.dequePush r x ≠ [] := by
  intro h
  have hlen := congrArg List.length h
  simp only [DetectVoice.dequePush, DetectVoice.maxlen, List.length_drop, List.length_append,
    List.length_cons, List.length_nil] at hlen
  omega

theorem vad_inv_step {α : Type} (s : DetectVoice.VadState α) (b : Bool)
    (ev : DetectVoice.CaptureEvent α)
    (h1 : s.triggered = false → s.speech = [])
    (h2 : s.triggered = true → s.speech ≠ []) :
    ((DetectVoice.captureStep s b ev).1.triggered = false →
      (DetectVoice.captureStep s b ev).1.speech = [])
    ∧ ((DetectVoice.captureStep s b ev).1.triggered = true →
      (DetectVoice.captureStep s b ev).1.speech ≠ []) := by
  cases b
  · cases ev with
    | readError => exact ⟨h1, h2⟩
    | badLength => exact ⟨h1, h2⟩
    | vadError f => exact ⟨h1, h2⟩
    | frame f v =>
      obtain ⟨tr, rg, sp⟩ := s
      show ((DetectVoice.stepFrame ⟨tr, rg, sp⟩ f v).1.triggered = false →
          (DetectVoice.stepFrame ⟨tr, rg, sp⟩ f v).1.speech = [])
        ∧ ((DetectVoice.stepFrame ⟨tr, rg, sp⟩ f v).1.triggered = true →
          (DetectVoice.stepFrame ⟨tr, rg, sp⟩ f v).1.speech ≠ [])
      cases tr
      · have hsp : sp = [] := h1 rfl
        by_cases hc : 10 * DetectVoice.countVoiced (DetectVoice.dequePush rg (f, v))
            > 6 * DetectVoice.maxlen
        · simp [DetectVoice.stepFrame, hc, hsp, dequePush_ne_nil rg (f, v)]
        · simp [DetectVoice.stepFrame, hc, hsp]
      · have hsp : sp ≠ [] := h2 rfl
        by_cases hc : 10 * DetectVoice.countUnvoiced (DetectVoice.dequePush rg (f, v))
            > 6 * DetectVoice.maxlen
        · simp [DetectVoice.stepFrame, hc]
        · simp [DetectVoice.stepFrame, hc]
  · exact ⟨h1, h2⟩

theorem vad_inv_run {α : Type} (evs : List (Bool × DetectVoice.CaptureEvent α))
    (s : DetectVoice.VadState α)
    (h1 : s.triggered = false → s.speech = [])
    (h2 : s.triggered = true → s.speech ≠ []) :
    ((DetectVoice.runCapture evs s).1.triggered = false →
      (DetectVoice.runCapture evs s).1.speech = [])
    ∧ ((DetectVoice.runCapture evs s).1.triggered = true →
      (DetectVoice.runCapture evs s).1.speech ≠ []) := by
  induction evs generalizing s with
  | nil => exact ⟨h1, h2⟩
  | cons hd tl ih =>
    obtain ⟨b, ev⟩ := hd
    have hstep := vad_inv_step s b ev h1 h2
    simp only [DetectVoice.runCapture]
    rcases hc : DetectVoice.captureStep s b ev with ⟨s', d⟩
    rw [hc] at hstep
    cases d
    · exact ih s' hstep.1 hstep.2
    · exact hstep

/-- Claim C7: when the capture loop's deadline elapses (no `break`), a run
that is still Idle has an empty utterance buffer and `record_with_vad`
returns `None` ("no speech"); a run that is Triggered has a non-empty
buffer and `record_with_vad` returns it, however long it is. -/
theorem C7_timeout_result {α : Type} [DecidableEq α]
    (evs : List (Bool × DetectVoice.CaptureEvent α))
    (hNoBreak : (DetectVoice.runCapture evs ((DetectVoice.initState : DetectVoice.VadState α))).2 = false) :
    ((DetectVoice.runCapture evs ((DetectVoice.initState : DetectVoice.VadState α))).1.triggered = false →
      DetectVoice.record_with_vad true evs = none)
    ∧ ((DetectVoice.runCapture evs ((DetectVoice.initState : DetectVoice.VadState α))).1.triggered = true →
      DetectVoice.record_with_vad true evs
          = some (DetectVoice.runCapture evs ((DetectVoice.initState : DetectVoice.VadState α))).1.speech
        ∧ (DetectVoice.runCapture evs ((DetectVoice.initState : DetectVoice.VadState α))).1.speech ≠ []) := by
  have hinv := vad_inv_run evs ((DetectVoice.initState : DetectVoice.VadState α))
    (fun _ => rfl) (fun h => by cases h)
  constructor
  · intro ht
    have hsp := hinv.1 ht
    simp [DetectVoice.record_with_vad, hsp]
  · intro ht
    have hsp := hinv.2 ht
    exact ⟨by simp [DetectVoice.record_with_vad, hsp], hsp⟩

/-- Witness for C7: seven voiced frames trigger the segmenter without a
break, and the accumulated buffer is returned. -/
theorem C7_timeout_result_witness :
    DetectVoice.record_with_vad true
        (List.replicate 7 (false, DetectVoice.CaptureEvent.frame (0 : Nat) true))
      = some [0, 0, 0, 0, 0, 0, 0] :=
  ((C7_timeout_result
      (List.replicate 7 (false, DetectVoice.CaptureEvent.frame (0 : Nat) true))
      (by decide)).2 (by decide)).1

theorem dequePush_lastN {α : Type} (done : List (α × Bool)) (x : α × Bool) :
    DetectVoice.dequePush (DetectVoice.lastN DetectVoice.maxlen done) x
      = DetectVoice.lastN DetectVoice.maxlen (done ++ [x]) := by
  unfold DetectVoice.dequePush DetectVoice.lastN DetectVoice.maxlen
  simp only [List.length_append, List.length_drop, List.length_cons, List.length_nil]
  rcases le_or_lt done.length 9 with hL | hL
  · have e1 : done.length - 10 = 0 := by omega
    rw [e1, List.drop_zero]
    congr 1 <;> omega
  · have e2 : done.length - (done.length - 10) + (0 + 1) - 10 = 1 := by omega
    rw [e2, List.drop_append_of_le_length (by rw [List.length_drop]; omega),
      List.drop_drop, List.drop_append_of_le_length (by omega)]
    have e3 : done.length - 10 + 1 = done.length + (0 + 1) - 10 := by omega
    rw [e3]

theorem runFrames_cons_no_trigger {α : Type} (f : α) (v : Bool)
    (rest : List (α × Bool)) (rg : List (α × Bool)) (sp : List α)
    (hc : ¬ 10 * DetectVoice.countVoiced (DetectVoice.dequePush rg (f, v))
        > 6 * DetectVoice.maxlen) :
    DetectVoice.runFrames ((f, v) :: rest) ⟨false, rg, sp⟩
      = DetectVoice.runFrames rest ⟨false, DetectVoice.dequePush rg (f, v), sp⟩ := by
  simp [DetectVoice.runFrames, DetectVoice.stepFrame, hc]

theorem runFrames_stays_idle_aux {α : Type} (frames : List (α × Bool))
    (hQ : ∀ k, k ≤ frames.length →
      10 * DetectVoice.countVoiced (DetectVoice.lastN DetectVoice.maxlen (frames.take k))
        ≤ 6 * DetectVoice.maxlen) :
    ∀ (pending done : List (α × Bool)), frames = done ++ pending →
      DetectVoice.runFrames pending ⟨false, DetectVoice.lastN DetectVoice.maxlen done, []⟩
        = (⟨false, DetectVoice.lastN DetectVoice.maxlen frames, []⟩, false) := by
  intro pending
  induction pending with
  | nil =>
    intro done h
    rw [List.append_nil] at h
    subst h
    rfl
  | cons x rest ih =>
    intro done h
    obtain ⟨f, v⟩ := x
    have hk : done.length + 1 ≤ frames.length := by
      subst h; simp [List.length_append]
    have htake : frames.take (done.length + 1) = done ++ [(f, v)] := by
      subst h
      rw [List.take_append]
      simp
    have hcond := hQ (done.length + 1) hk
    rw [htake, ← dequePush_lastN] at hcond
    rw [runFrames_cons_no_trigger f v rest _ _ (by omega), dequePush_lastN]
    exact ih (done ++ [(f, v)]) (by rw [h]; simp)

/-- Claim C6 (amended): if every full window of 10 consecutive frames has
voiced count ≤ 6 (fraction ≤ 0.6) AND every prefix shorter than the window
capacity also has voiced count ≤ 6 (the code compares against
0.6 × capacity even before the window fills), then the segmenter never
leaves Idle: it never triggers, the utterance buffer stays empty and the
loop never breaks. -/
theorem C6_amended {α : Type} (frames : List (α × Bool))
    (hwin : ∀ i, i + DetectVoice.maxlen ≤ frames.length →
      10 * DetectVoice.countVoiced ((frames.drop i).take DetectVoice.maxlen)
        ≤ 6 * DetectVoice.maxlen)
    (hpre : ∀ k, k < DetectVoice.maxlen →
      10 * DetectVoice.countVoiced (frames.take k) ≤ 6 * DetectVoice.maxlen) :
    (DetectVoice.runFrames frames DetectVoice.initState).1.triggered = false
    ∧ (DetectVoice.runFrames frames DetectVoice.initState).1.speech = []
    ∧ (DetectVoice.runFrames frames DetectVoice.initState).2 = false := by
  have hQ : ∀ k, k ≤ frames.length →
      10 * DetectVoice.countVoiced (DetectVoice.lastN DetectVoice.maxlen (frames.take k))
        ≤ 6 * DetectVoice.maxlen := by
    intro k hk
    have hlen : (frames.take k).length = k := by
      rw [List.length_take]; omega
    rcases lt_or_ge k DetectVoice.maxlen with hlt | hge
    · have heq : DetectVoice.lastN DetectVoice.maxlen (frames.take k) = frames.take k := by
        unfold DetectVoice.lastN
        rw [hlen]
        have : k - DetectVoice.maxlen = 0 := by
          unfold DetectVoice.maxlen at hlt ⊢; omega
        rw [this, List.drop_zero]
      rw [heq]
      exact hpre k hlt
    · have heq : DetectVoice.lastN DetectVoice.maxlen (frames.take k)
          = (frames.drop (k - DetectVoice.maxlen)).take DetectVoice.maxlen := by
        unfold DetectVoice.lastN
        rw [hlen, List.drop_take]
        congr 1
        unfold DetectVoice.maxlen at hge ⊢
        omega
      rw [heq]
      exact hwin (k - DetectVoice.maxlen) (by unfold DetectVoice.maxlen at hge ⊢; omega)
  have hrun := runFrames_stays_idle_aux frames hQ frames [] (by simp)
  have hinit : (⟨false, DetectVoice.lastN DetectVoice.maxlen [], []⟩ : DetectVoice.VadState α)
      = DetectVoice.initState := rfl
  rw [hinit] at hrun
  rw [hrun]
  exact ⟨rfl, rfl, rfl⟩

/-- Witness for C6 (amended): 20 unvoiced frames leave the segmenter Idle. -/
theorem C6_amended_witness :
    (DetectVoice.runFrames (List.replicate 20 ((0 : Nat), false))
      DetectVoice.initState).1.triggered = false
    ∧ (DetectVoice.runFrames (List.replicate 20 ((0 : Nat), false))
      DetectVoice.initState).1.speech = []
    ∧ (DetectVoice.runFrames (List.replicate 20 ((0 : Nat), false))
      DetectVoice.initState).2 = false :=
  C6_amended (List.replicate 20 ((0 : Nat), false))
    (by
      intro i hi
      have h0 : DetectVoice.countVoiced
          (((List.replicate 20 ((0 : Nat), false)).drop i).take DetectVoice.maxlen) = 0 := by
        unfold DetectVoice.countVoiced
        rw [List.countP_eq_zero]
        intro a ha
        have ha2 := List.eq_of_mem_replicate
          (List.mem_of_mem_drop (List.mem_of_mem_take ha))
        rw [ha2]
        simp
      rw [h0]
      decide)
    (by
      intro k hk
      have h0 : DetectVoice.countVoiced ((List.replicate 20 ((0 : Nat), false)).take k) = 0 := by
        unfold DetectVoice.countVoiced
        rw [List.countP_eq_zero]
        intro a ha
        have ha2 := List.eq_of_mem_replicate (List.mem_of_mem_take ha)
        rw [ha2]
        simp
      rw [h0]
      decide)

/-- A sequence of 7 voiced frames is shorter than the window capacity, so it
contains no full window of 10 consecutive frames at all (the claimed
hypothesis is vacuously satisfied), yet the segmenter triggers on it and
fills the utterance buffer, leaving Idle. -/
theorem C6_counterexample :
    (List.replicate 7 ((0 : Nat), true)).length < DetectVoice.maxlen
    ∧ (DetectVoice.runFrames (List.replicate 7 ((0 : Nat), true))
        DetectVoice.initState).1.triggered = true
    ∧ (DetectVoice.runFrames (List.replicate 7 ((0 : Nat), true))
        DetectVoice.initState).1.speech ≠ [] := by
  refine ⟨by decide, by decide, by decide⟩

theorem mem_collapsePunctAux (l : List Char) :
    ∀ (b : Bool) (c : Char), c ∈ DeepseekApi.collapsePunctAux b l → c = '.' ∨ c ∈ l := by
  induction l with
  | nil =>
    intro b c h
    cases b <;> simp [DeepseekApi.collapsePunctAux] at h
  | cons a t ih =>
    intro b c h
    cases b with
    | true =>
      cases hpa : DeepseekApi.isPunct a
      · rw [DeepseekApi.collapsePunctAux, if_neg (by simp [hpa])] at h
        rcases List.mem_cons.mp h with h1 | h1
        · right; rw [h1]; exact List.mem_cons_self a t
        · rcases ih false c h1 with h2 | h2
          · exact Or.inl h2
          · exact Or.inr (List.mem_cons_of_mem a h2)
      · rw [DeepseekApi.collapsePunctAux, if_pos hpa] at h
        rcases ih true c h with h2 | h2
        · exact Or.inl h2
        · exact Or.inr (List.mem_cons_of_mem a h2)
    | false =>
      cases t with
      | nil =>
        rw [show DeepseekApi.collapsePunctAux false [a] = [a] from rfl] at h
        right; exact h
      | cons b' t'' =>
        cases hab : DeepseekApi.isPunct a && DeepseekApi.isPunct b'
        · rw [DeepseekApi.collapsePunctAux, if_neg (by simp [hab])] at h
          rcases List.mem_cons.mp h with h1 | h1
          · right; rw [h1]; exact List.mem_cons_self a (b' :: t'')
          · rcases ih false c h1 with h2 | h2
            · exact Or.inl h2
            · exact Or.inr (List.mem_cons_of_mem a h2)
        · rw [DeepseekApi.collapsePunctAux, if_pos hab] at h
          rcases List.mem_cons.mp h with h1 | h1
          · exact Or.inl h1
          · rcases ih true c h1 with h2 | h2
            · exact Or.inl h2
            · exact Or.inr (List.mem_cons_of_mem a h2)

theorem mem_collapseWsAux (l : List Char) :
    ∀ (b : Bool) (c : Char), c ∈ DeepseekApi.collapseWsAux b l → c = ' ' ∨ c ∈ l := by
  induction l with
  | nil =>
    intro b c h
    simp [DeepseekApi.collapseWsAux] at h
  | cons a t ih =>
    intro b c h
    cases hsa : DeepseekApi.isPySpace a
    · rw [DeepseekApi.collapseWsAux, if_neg (by simp [hsa])] at h
      rcases List.mem_cons.mp h with h1 | h1
      · right; rw [h1]; exact List.mem_cons_self a t
      · rcases ih false c h1 with h2 | h2
        · exact Or.inl h2
        · exact Or.inr (List.mem_cons_of_mem a h2)
    · rw [DeepseekApi.collapseWsAux, if_pos hsa] at h
      cases b
      · rcases List.mem_cons.mp h with h1 | h1
        · exact Or.inl h1
        · rcases ih true c h1 with h2 | h2
          · exact Or.inl h2
          · exact Or.inr (List.mem_cons_of_mem a h2)
      · rcases ih true c h with h2 | h2
        · exact Or.inl h2
        · exact Or.inr (List.mem_cons_of_mem a h2)

theorem mem_dropTrailingWs (l : List Char) (c : Char)
    (h : c ∈ DeepseekApi.dropTrailingWs l) : c ∈ l := by
  induction l with
  | nil => simpa [DeepseekApi.dropTrailingWs] using h
  | cons a t ih =>
    rw [DeepseekApi.dropTrailingWs] at h
    cases hr : DeepseekApi.dropTrailingWs t with
    | nil =>
      rw [hr] at h
      cases hsa : DeepseekApi.isPySpace a
      · rw [if_neg (by simp [hsa])] at h
        rw [List.mem_singleton.mp h]
        exact List.mem_cons_self a t
      · rw [if_pos hsa] at h
        simp at h
    | cons x xs =>
      rw [hr] at h
      rcases List.mem_cons.mp h with h1 | h1
      · rw [h1]; exact List.mem_cons_self a t
      · exact List.mem_cons_of_mem a (ih (hr ▸ h1))

theorem head_dropTrailingWs (l : List Char) (c : Char)
    (h : (DeepseekApi.dropTrailingWs l).head? = some c) : l.head? = some c := by
  cases l with
  | nil => simp [DeepseekApi.dropTrailingWs] at h
  | cons a t =>
    rw [DeepseekApi.dropTrailingWs] at h
    cases hr : DeepseekApi.dropTrailingWs t with
    | nil =>
      rw [hr] at h
      cases hsa : DeepseekApi.isPySpace a
      · rw [if_neg (by simp [hsa])] at h
        exact h
      · rw [if_pos hsa] at h
        simp at h
    | cons x xs =>
      rw [hr] at h
      exact h

theorem last_dropTrailingWs (l : List Char) :
    ∀ c, (DeepseekApi.dropTrailingWs l).getLast? = some c → DeepseekApi.isPySpace c = false := by
  induction l with
  | nil => intro c h; simp [DeepseekApi.dropTrailingWs] at h
  | cons a t ih =>
    intro c h
    rw [DeepseekApi.dropTrailingWs] at h
    cases hr : DeepseekApi.dropTrailingWs t with
    | nil =>
      rw [hr] at h
      cases hsa : DeepseekApi.isPySpace a
      · rw [if_neg (by simp [hsa])] at h
        simp only [List.getLast?_singleton, Option.some.injEq] at h
        rw [← h]; exact hsa
      · rw [if_pos hsa] at h
        simp at h
    | cons x xs =>
      rw [hr] at h
      rw [List.getLast?_cons_cons] at h
      exact ih c (hr ▸ h)

theorem head_dropWhile (p : Char → Bool) (l : List Char) :
    ∀ c, (l.dropWhile p).head? = some c → p c = false := by
  induction l with
  | nil => intro c h; simp at h
  | cons a t ih =>
    intro c h
    cases hpa : p a
    · rw [List.dropWhile_cons_of_neg (by simp [hpa])] at h
      simp only [List.head?_cons, Option.some.injEq] at h
      rw [← h]; exact hpa
    · rw [List.dropWhile_cons_of_pos hpa] at h
      exact ih c h

theorem noPP_cons_of (c : Char) (l : List Char)
    (hpair : ∀ d, l.head? = some d → (DeepseekApi.isPunct c && DeepseekApi.isPunct d) = false)
    (hl : DeepseekApi.noPunctPair l = true) :
    DeepseekApi.noPunctPair (c :: l) = true := by
  cases l with
  | nil => rfl
  | cons d t =>
    have hp := hpair d rfl
    rw [DeepseekApi.noPunctPair, hp]
    simpa using hl

theorem noPP_of_cons (c : Char) (l : List Char)
    (h : DeepseekApi.noPunctPair (c :: l) = true) :
    DeepseekApi.noPunctPair l = true
    ∧ (∀ d, l.head? = some d → (DeepseekApi.isPunct c && DeepseekApi.isPunct d) = false) := by
  cases l with
  | nil => exact ⟨rfl, fun d hd => by cases hd⟩
  | cons d t =>
    rw [DeepseekApi.noPunctPair, Bool.and_eq_true, Bool.not_eq_true'] at h
    refine ⟨h.2, fun e he => ?_⟩
    simp only [List.head?_cons, Option.some.injEq] at he
    rw [← he]; exact h.1

theorem head_collapsePunctAux_true (l : List Char) :
    ∀ c, (DeepseekApi.collapsePunctAux true l).head? = some c →
      DeepseekApi.isPunct c = false := by
  induction l with
  | nil => intro c h; simp [DeepseekApi.collapsePunctAux] at h
  | cons a t ih =>
    intro c h
    cases hpa : DeepseekApi.isPunct a
    · rw [DeepseekApi.collapsePunctAux, if_neg (by simp [hpa])] at h
      simp only [List.head?_cons, Option.some.injEq] at h
      rw [← h]; exact hpa
    · rw [DeepseekApi.collapsePunctAux, if_pos hpa] at h
      exact ih c h

theorem head_collapsePunctAux_false (l : List Char) (c : Char)
    (hh : l.head? = some c) (hp : DeepseekApi.isPunct c = false) :
    (DeepseekApi.collapsePunctAux false l).head? = some c := by
  cases l with
  | nil => cases hh
  | cons a t =>
    simp only [List.head?_cons, Option.some.injEq] at hh
    subst hh
    cases t with
    | nil => rfl
    | cons b' t'' =>
      rw [DeepseekApi.collapsePunctAux, if_neg (by simp [hp])]
      rfl

theorem head_collapseWsAux_false (t : List Char) (d : Char)
    (hd : (DeepseekApi.collapseWsAux false t).head? = some d)
    (hp : DeepseekApi.isPunct d = true) : t.head? = some d := by
  cases t with
  | nil => simp [DeepseekApi.collapseWsAux] at hd
  | cons e t' =>
    cases hse : DeepseekApi.isPySpace e
    · rw [DeepseekApi.collapseWsAux, if_neg (by simp [hse])] at hd
      exact hd
    · rw [DeepseekApi.collapseWsAux, if_pos hse, if_neg (by simp)] at hd
      simp only [List.head?_cons, Option.some.injEq] at hd
      rw [← hd] at hp
      exact absurd hp (by decide)

theorem noPP_collapsePunctAux (l : List Char) :
    ∀ b, DeepseekApi.noPunctPair (DeepseekApi.collapsePunctAux b l) = true := by
  induction l with
  | nil => intro b; cases b <;> rfl
  | cons a t ih =>
    intro b
    cases b with
    | true =>
      cases hpa : DeepseekApi.isPunct a
      · rw [DeepseekApi.collapsePunctAux, if_neg (by simp [hpa])]
        refine noPP_cons_of a _ (fun d hd => ?_) (ih false)
        rw [hpa]; rfl
      · rw [DeepseekApi.collapsePunctAux, if_pos hpa]
        exact ih true
    | false =>
      cases t with
      | nil => rfl
      | cons b' t'' =>
        cases hab : DeepseekApi.isPunct a && DeepseekApi.isPunct b'
        · rw [DeepseekApi.collapsePunctAux, if_neg (by simp [hab])]
          refine noPP_cons_of a _ (fun d hd => ?_) (ih false)
          cases hpa : DeepseekApi.isPunct a
          · rfl
          · have hpb : DeepseekApi.isPunct b' = false := by
              rcases Bool.and_eq_false_iff.mp hab with h1 | h1
              · rw [hpa] at h1; cases h1
              · exact h1
            have hhead := head_collapsePunctAux_false (b' :: t'') b' rfl hpb
            rw [hhead] at hd
            simp only [Option.some.injEq] at hd
            rw [← hd, hpb]
            rfl
        · rw [DeepseekApi.collapsePunctAux, if_pos hab]
          refine noPP_cons_of '.' _ (fun d hd => ?_) (ih true)
          rw [head_collapsePunctAux_true (b' :: t'') d hd]
          rw [Bool.and_false]

theorem noPP_collapseWsAux (l : List Char) :
    ∀ b, DeepseekApi.noPunctPair l = true →
      DeepseekApi.noPunctPair (DeepseekApi.collapseWsAux b l) = true := by
  induction l with
  | nil => intro b _; cases b <;> rfl
  | cons a t ih =>
    intro b hl
    have hparts := noPP_of_cons a t hl
    cases hsa : DeepseekApi.isPySpace a
    · rw [DeepseekApi.collapseWsAux, if_neg (by simp [hsa])]
      refine noPP_cons_of a _ (fun d hd => ?_) (ih false hparts.1)
      cases hpa : DeepseekApi.isPunct a
      · rfl
      · cases hpd : DeepseekApi.isPunct d
        · rw [Bool.and_false]
        · have hht := head_collapseWsAux_false t d hd hpd
          have := hparts.2 d hht
          rw [hpa, hpd] at this
          exact this
    · rw [DeepseekApi.collapseWsAux, if_pos hsa]
      cases b with
      | true =>
        rw [if_pos rfl]
        exact ih true hparts.1
      | false =>
        rw [if_neg (by simp)]
        refine noPP_cons_of ' ' _ (fun d hd => ?_) (ih true hparts.1)
        rfl

theorem noPP_dropWhile (p : Char → Bool) (l : List Char)
    (h : DeepseekApi.noPunctPair l = true) :
    DeepseekApi.noPunctPair (l.dropWhile p) = true := by
  induction l with
  | nil => exact h
  | cons a t ih =>
    cases hpa : p a
    · rw [List.dropWhile_cons_of_neg (by simp [hpa])]
      exact h
    · rw [List.dropWhile_cons_of_pos hpa]
      exact ih (noPP_of_cons a t h).1

theorem noPP_dropTrailingWs (l : List Char)
    (h : DeepseekApi.noPunctPair l = true) :
    DeepseekApi.noPunctPair (DeepseekApi.dropTrailingWs l) = true := by
  induction l with
  | nil => exact h
  | cons a t ih =>
    have hparts := noPP_of_cons a t h
    rw [DeepseekApi.dropTrailingWs]
    cases hr : DeepseekApi.dropTrailingWs t with
    | nil =>
      cases hsa : DeepseekApi.isPySpace a
      · rfl
      · rfl
    | cons x xs =>
      refine noPP_cons_of a _ (fun d hd => ?_) ?_
      · have hhx : (DeepseekApi.dropTrailingWs t).head? = some d := by
          rw [hr]; exact hd
        exact hparts.2 d (head_dropTrailingWs t d hhx)
      · rw [← hr]
        exact ih hparts.1

theorem noPP_append_dot (l : List Char) :
    DeepseekApi.noPunctPair l = true →
    (∀ d, l.getLast? = some d → DeepseekApi.isPunct d = false) →
    DeepseekApi.noPunctPair (l ++ ['.']) = true := by
  induction l with
  | nil => intro _ _; rfl
  | cons a t ih =>
    intro h hlast
    cases t with
    | nil =>
      have ha := hlast a rfl
      show DeepseekApi.noPunctPair [a, '.'] = true
      rw [DeepseekApi.noPunctPair, ha]
      rfl
    | cons b t' =>
      have hparts := noPP_of_cons a (b :: t') h
      show DeepseekApi.noPunctPair (a :: ((b :: t') ++ ['.'])) = true
      refine noPP_cons_of a _ (fun d hd => ?_) ?_
      · have : ((b :: t') ++ ['.']).head? = some b := rfl
        rw [this] at hd
        simp only [Option.some.injEq] at hd
        rw [← hd]
        exact hparts.2 b rfl
      · exact ih hparts.1 (fun d hdl => hlast d (by rw [List.getLast?_cons_cons]; exact hdl))

theorem punct_not_space (c : Char) (h : DeepseekApi.isPunct c = true) :
    DeepseekApi.isPySpace c = false := by
  simp only [DeepseekApi.isPunct, Bool.or_eq_true] at h
  rcases h with (h2 | h2) | h2 <;> rw [eq_of_beq h2] <;> rfl

theorem ttsFinal_endsSentence (l : List Char) (h : DeepseekApi.ttsFinal l ≠ []) :
    DeepseekApi.endsSentence (DeepseekApi.ttsFinal l) = true := by
  rw [DeepseekApi.ttsFinal] at h ⊢
  cases hl : l.getLast? with
  | none =>
    rw [hl] at h
    exact absurd (List.getLast?_eq_none_iff.mp hl) h
  | some c =>
    show DeepseekApi.endsSentence
      (if DeepseekApi.isPunct c = true then l else l ++ ['.']) = true
    cases hp : DeepseekApi.isPunct c
    · rw [if_neg (by simp)]
      rw [DeepseekApi.endsSentence, List.getLast?_concat]
      rfl
    · rw [if_pos rfl]
      rw [DeepseekApi.endsSentence, hl]
      exact hp

theorem ttsFinal_head (l : List Char) (c : Char)
    (h : (DeepseekApi.ttsFinal l).head? = some c) : l.head? = some c := by
  rw [DeepseekApi.ttsFinal] at h
  cases hl : l.getLast? with
  | none => rw [hl] at h; exact h
  | some d =>
    rw [hl] at h
    have h' : (if DeepseekApi.isPunct d = true then l else l ++ ['.']).head? = some c := h
    cases hp : DeepseekApi.isPunct d
    · rw [if_neg (by simp [hp])] at h'
      cases l with
      | nil => simp at hl
      | cons a t => exact h'
    · rw [if_pos hp] at h'
      exact h'

theorem ttsFinal_mem (l : List Char) (c : Char)
    (h : c ∈ DeepseekApi.ttsFinal l) : c ∈ l ∨ c = '.' := by
  rw [DeepseekApi.ttsFinal] at h
  cases hl : l.getLast? with
  | none => rw [hl] at h; exact Or.inl h
  | some d =>
    rw [hl] at h
    have h' : c ∈ (if DeepseekApi.isPunct d = true then l else l ++ ['.']) := h
    cases hp : DeepseekApi.isPunct d
    · rw [if_neg (by simp [hp])] at h'
      rcases List.mem_append.mp h' with h1 | h1
      · exact Or.inl h1
      · exact Or.inr (List.mem_singleton.mp h1)
    · rw [if_pos hp] at h'
      exact Or.inl h'

theorem ttsFinal_noPP (l : List Char) (h : DeepseekApi.noPunctPair l = true) :
    DeepseekApi.noPunctPair (DeepseekApi.ttsFinal l) = true := by
  rw [DeepseekApi.ttsFinal]
  cases hl : l.getLast? with
  | none => exact h
  | some d =>
    show DeepseekApi.noPunctPair
      (if DeepseekApi.isPunct d = true then l else l ++ ['.']) = true
    cases hp : DeepseekApi.isPunct d
    · rw [if_neg (by simp)]
      refine noPP_append_dot l h (fun e he => ?_)
      rw [hl] at he
      simp only [Option.some.injEq] at he
      rw [← he]
      exact hp
    · rw [if_pos rfl]
      exact h

theorem ttsCore_noPP (u : List Char) :
    DeepseekApi.noPunctPair (DeepseekApi.ttsCore u) = true := by
  rw [DeepseekApi.ttsCore, DeepseekApi.pyStrip, DeepseekApi.collapseWs, DeepseekApi.collapsePunct]
  exact noPP_dropTrailingWs _
    (noPP_dropWhile _ _
      (noPP_collapseWsAux _ false
        (noPP_collapsePunctAux _ false)))

theorem ttsCore_head_ws (u : List Char) (c : Char)
    (h : (DeepseekApi.ttsCore u).head? = some c) : DeepseekApi.isPySpace c = false := by
  rw [DeepseekApi.ttsCore, DeepseekApi.pyStrip] at h
  exact head_dropWhile _ _ c (head_dropTrailingWs _ c h)

theorem ttsCore_last_ws (u : List Char) (c : Char)
    (h : (DeepseekApi.ttsCore u).getLast? = some c) : DeepseekApi.isPySpace c = false := by
  rw [DeepseekApi.ttsCore, DeepseekApi.pyStrip] at h
  exact last_dropTrailingWs _ c h

theorem ttsCore_mem (u : List Char) (c : Char)
    (h : c ∈ DeepseekApi.ttsCore u) : DeepseekApi.isSpecialChar c = false := by
  rw [DeepseekApi.ttsCore, DeepseekApi.pyStrip] at h
  have h2 := (List.dropWhile_sublist DeepseekApi.isPySpace).mem (mem_dropTrailingWs _ c h)
  rw [DeepseekApi.collapseWs] at h2
  rcases mem_collapseWsAux _ false c h2 with h3 | h3
  · rw [h3]; rfl
  · rw [DeepseekApi.collapsePunct] at h3
    rcases mem_collapsePunctAux _ false c h3 with h4 | h4
    · rw [h4]; rfl
    · have h5 := List.of_mem_filter h4
      simpa using h5

/-- Claim C10: every non-empty string returned by `get_deepseek_response`
(the cleaned chat reply) ends with one of `.`, `!`, `?`, contains none of
the stripped special characters, has no run of two or more consecutive
`.?!` characters, and has no leading or trailing whitespace. -/
theorem C10_cleaned_reply (content : List Char)
    (h : DeepseekApi.deepseekCleanedReply content ≠ []) :
    DeepseekApi.endsSentence (DeepseekApi.deepseekCleanedReply content) = true
    ∧ DeepseekApi.noSpecialB (DeepseekApi.deepseekCleanedReply content) = true
    ∧ DeepseekApi.noPunctPair (DeepseekApi.deepseekCleanedReply content) = true
    ∧ DeepseekApi.headNoWs (DeepseekApi.deepseekCleanedReply content) = true
    ∧ DeepseekApi.lastNoWs (DeepseekApi.deepseekCleanedReply content) = true := by
  rw [DeepseekApi.deepseekCleanedReply, DeepseekApi.clean_text_for_tts] at h ⊢
  by_cases hm : DeepseekApi.pyStrip content = []
  · rw [if_pos hm] at h
    exact absurd hm h
  · rw [if_neg hm] at h ⊢
    refine ⟨ttsFinal_endsSentence _ h, ?_,
      ttsFinal_noPP _ (ttsCore_noPP (DeepseekApi.ttsPre (DeepseekApi.pyStrip content))),
      ?_, ?_⟩
    · rw [DeepseekApi.noSpecialB, List.all_eq_true]
      intro c hc
      rcases ttsFinal_mem _ c hc with h1 | h1
      · simp only [Bool.not_eq_true']
        exact ttsCore_mem (DeepseekApi.ttsPre (DeepseekApi.pyStrip content)) c h1
      · rw [h1]; rfl
    · rw [DeepseekApi.headNoWs]
      cases hh : (DeepseekApi.ttsFinal (DeepseekApi.ttsCore
          (DeepseekApi.ttsPre (DeepseekApi.pyStrip content)))).head? with
      | none => rfl
      | some c =>
        have hws := ttsCore_head_ws (DeepseekApi.ttsPre (DeepseekApi.pyStrip content)) c
          (ttsFinal_head _ c hh)
        simp [hws]
    · rw [DeepseekApi.lastNoWs]
      have hes := ttsFinal_endsSentence _ h
      cases hg : (DeepseekApi.ttsFinal (DeepseekApi.ttsCore
          (DeepseekApi.ttsPre (DeepseekApi.pyStrip content)))).getLast? with
      | none => rfl
      | some c =>
        rw [DeepseekApi.endsSentence, hg] at hes
        have hws := punct_not_space c hes
        simp [hws]

/-- Witness for C10 at the reply text "Hi **yo**!!"  (whose cleaned form is
"Hi yo."). -/
theorem C10_cleaned_reply_witness :
    DeepseekApi.endsSentence (DeepseekApi.deepseekCleanedReply
      ['H', 'i', ' ', '*', '*', 'y', 'o', '*', '*', '!', '!']) = true
    ∧ DeepseekApi.noSpecialB (DeepseekApi.deepseekCleanedReply
      ['H', 'i', ' ', '*', '*', 'y', 'o', '*', '*', '!', '!']) = true
    ∧ DeepseekApi.noPunctPair (DeepseekApi.deepseekCleanedReply
      ['H', 'i', ' ', '*', '*', 'y', 'o', '*', '*', '!', '!']) = true
    ∧ DeepseekApi.headNoWs (DeepseekApi.deepseekCleanedReply
      ['H', 'i', ' ', '*', '*', 'y', 'o', '*', '*', '!', '!']) = true
    ∧ DeepseekApi.lastNoWs (DeepseekApi.deepseekCleanedReply
      ['H', 'i', ' ', '*', '*', 'y', 'o', '*', '*', '!', '!']) = true :=
  C10_cleaned_reply ['H', 'i', ' ', '*', '*', 'y', 'o', '*', '*', '!', '!'] (by decide)
